import Mathlib

/-
Verification of generate_rev_data.py, a MediaWiki revision sampler.
The Python source is shallowly embedded: JSON bodies are an inductive
type, the network is an oracle function from request batches to
responses, Python exceptions are explicit error values, and the two
unbounded loops (the batch loop and the retry loop) are modelled by
structural recursion on the list, respectively by an explicit fuel
parameter (running out of fuel marks a run that has not terminated
within that many retry passes).
-/

/-! ## Python decimal conversions

Models of the Python builtins str (on a nonnegative int) and int (on a
string).  All integers handled by the program are nonnegative: revision
ids come from digit strings or from range arithmetic with positive step.
The model of int accepts exactly nonempty all-digit strings, as does the
str.isdigit check in check_opts; Python also accepts signs, surrounding
whitespace and non-ASCII digits, which never occur in this program. -/

def digit_char (d : Nat) : Char :=
  match d with
  | 0 => '0' | 1 => '1' | 2 => '2' | 3 => '3' | 4 => '4'
  | 5 => '5' | 6 => '6' | 7 => '7' | 8 => '8' | _ => '9'

def natToStrGo : Nat → Nat → List Char → List Char
  | 0, _, acc => acc
  | fuel + 1, n, acc =>
    let d := digit_char (n % 10)
    if n < 10 then d :: acc else natToStrGo fuel (n / 10) (d :: acc)

def pyStrOfNat (n : Nat) : String := ⟨natToStrGo (n + 1) n []⟩

def isDigitChar (c : Char) : Bool := 48 ≤ c.toNat && c.toNat ≤ 57

def pyIsdigit (s : String) : Bool := !s.data.isEmpty && s.data.all isDigitChar

def pyIntOfStr (s : String) : Option Nat :=
  if pyIsdigit s then some (s.data.foldl (fun a c => 10 * a + (c.toNat - 48)) 0)
  else none

/-! ## JSON values -/

inductive Json where
  | null
  | str (s : String)
  | num (n : Int)
  | bool (b : Bool)
  | arr (elts : List Json)
  | obj (fields : List (String × Json))

mutual

def Json.beq : Json → Json → Bool
  | .null, .null => true
  | .str a, .str b => a == b
  | .num a, .num b => a == b
  | .bool a, .bool b => a == b
  | .arr as, .arr bs => Json.beqArr as bs
  | .obj as, .obj bs => Json.beqObj as bs
  | _, _ => false

def Json.beqArr : List Json → List Json → Bool
  | [], [] => true
  | x :: xs, y :: ys => Json.beq x y && Json.beqArr xs ys
  | _, _ => false

def Json.beqObj : List (String × Json) → List (String × Json) → Bool
  | [], [] => true
  | (k1, v1) :: xs, (k2, v2) :: ys => k1 == k2 && Json.beq v1 v2 && Json.beqObj xs ys
  | _, _ => false

end

instance : BEq Json := ⟨Json.beq⟩

/-- Python d[k] on a parsed JSON value: returns the value when d is an
object holding key k; the model value none stands for the KeyError or
TypeError Python raises otherwise (always caught by the enclosing
try/except in the source). -/
def Json.getField : Json → String → Option Json
  | .obj fields, k => fields.lookup k
  | _, _ => none

/-- Python (k in d).  On an object: key membership.  On a list: membership
of the string among the elements.  On a string: substring test.  On the
remaining shapes Python raises TypeError, modelled as none. -/
def Json.hasKey : Json → String → Option Bool
  | .obj fields, k => some (fields.any (fun p => p.1 == k))
  | .arr elts, k => some (elts.any (fun e => e == Json.str k))
  | .str s, k => some (decide ((s.splitOn k).length > 1))
  | _, _ => none

/-- Python d.keys() (and iteration over a dict, which yields its keys).
Raises, i.e. none, when the value is not an object. -/
def Json.keysOf : Json → Option (List String)
  | .obj fields => some (fields.map Prod.fst)
  | _ => none

/-- Iteration over a JSON value expected to be a list.  Iterating a
non-list either raises or yields items of the wrong shape downstream;
both funnel into the except-branch of the source, modelled as none. -/
def Json.asArr : Json → Option (List Json)
  | .arr elts => some elts
  | _ => none

/-! ## Python dict with JSON keys

revid_timestamp in the source is a dict keyed by the revid values taken
from the response (ints for well-formed responses).  Assignment replaces
the value of an existing key in place and otherwise appends, preserving
insertion order, as Python dicts do. -/

def dictInsert (d : List (Json × Json)) (k v : Json) : List (Json × Json) :=
  if d.any (fun p => p.1 == k) then
    d.map (fun p => if p.1 == k then (k, v) else p)
  else d ++ [(k, v)]

def dictGetD (d : List (Json × Json)) (k : Json) (dflt : Json) : Json :=
  match d.lookup k with
  | some v => v
  | none => dflt

/-! ## Translation of the source functions

HTTP is an oracle: the content of a response is an Option Json, where
none stands for a body that json.loads cannot parse. -/

structure HttpResp where
  status : Nat
  body : Option Json

/-- The three shapes of value get_revinfo_from_json can return: the
Python None of the except branch, the bare empty dict of the
no-pages branch (source line: return with an empty dict and a comment
that all the revs were bad), and the normal two-tuple. -/
inductive FromJsonResult where
  | pyNoneRes
  | bareEmpty
  | pairRes (revid_timestamp : List (Json × Json)) (badrevs : List String)

/-- Inner loop of get_revinfo_from_json over one revisions list:
revid_timestamp[revision[revid-key]] = revision[timestamp-key]. -/
def revisionsInto (acc : List (Json × Json)) (revList : List Json) :
    Option (List (Json × Json)) :=
  revList.foldlM (fun a revision => do
    let revid ← revision.getField "revid"
    let ts ← revision.getField "timestamp"
    pure (dictInsert a revid ts)) acc

/-- Body of the outer loop of get_revinfo_from_json for one page key. -/
def pagesInto (pages : Json) (acc : List (Json × Json)) (page : String) :
    Option (List (Json × Json)) := do
  let pageVal ← pages.getField page
  let revisions ← pageVal.getField "revisions"
  let revList ← revisions.asArr
  revisionsInto acc revList

/-- get_revinfo_from_json (src/generate_rev_data.py lines 132-158).
The whole body runs under try/except Exception, so any failed lookup,
iteration of the wrong shape, or unparseable content produces the
Python None, i.e. pyNoneRes.  When the query object has no pages key
the source returns a bare empty dict (bareEmpty), dropping badrevs. -/
def get_revinfo_from_json (content : Option Json) : FromJsonResult :=
  let attempt : Option FromJsonResult := do
    let revinfo ← content
    let query ← revinfo.getField "query"
    let hasBad ← query.hasKey "badrevids"
    let badrevs ← if hasBad then do
        let b ← query.getField "badrevids"
        b.keysOf
      else pure []
    let hasPages ← query.hasKey "pages"
    if hasPages then do
      let pages ← query.getField "pages"
      let pageKeys ← pages.keysOf
      let m ← pageKeys.foldlM (pagesInto pages) []
      pure (FromJsonResult.pairRes m badrevs)
    else
      pure FromJsonResult.bareEmpty
  match attempt with
  | none => .pyNoneRes
  | some r => r

/-- get_revid_from_json (lines 173-188): extract the single revid from
the allrevisions response; any parse failure, or a revision count other
than one, yields the Python None. -/
def get_revid_from_json (content : Option Json) : Option Json :=
  do
    let revinfo ← content
    let query ← revinfo.getField "query"
    let allrevs ← query.getField "allrevisions"
    let entries ← allrevs.asArr
    let revisions ← entries.foldlM (fun acc entry => do
      let revs ← entry.getField "revisions"
      let rl ← revs.asArr
      pure (acc ++ rl)) ([] : List Json)
    match revisions with
    | [r] => r.getField "revid"
    | _ => none

/-- get_max_rev (lines 191-203): one GET of the max-revision query,
modelled by the response maxResp; non-200 writes a diagnostic and
returns None, otherwise the parse result is returned as is. -/
def get_max_rev (maxResp : HttpResp) : Option Json :=
  if maxResp.status ≠ 200 then none
  else get_revid_from_json maxResp.body

/-- A Python computation that either returns a value or terminates with
an uncaught exception of the named class. -/
inductive PyResult (α : Type) where
  | ok (a : α)
  | exn (e : String)
  deriving DecidableEq

/-- The value returned by get_revinfo: the Python None of the non-200
branch, or the (revinfo, badrevs) tuple. -/
inductive GetRevinfoReturn where
  | pyNone
  | pairRet (revinfo : List (Json × Json)) (badrevs : List String)

/-- get_revinfo (lines 206-219).  serve is the HTTP oracle: it maps the
submitted revids list to the response for the revisions-by-id GET.  On
non-200 the function returns the Python None.  Otherwise line 218
unpacks the result of get_revinfo_from_json into two names, which
raises TypeError when that result is None (not iterable) and ValueError
when it is the bare empty dict (zero keys to unpack). -/
def get_revinfo (serve : List String → HttpResp) (revids : List String) :
    PyResult GetRevinfoReturn :=
  let response := serve revids
  if response.status ≠ 200 then .ok .pyNone
  else
    match get_revinfo_from_json response.body with
    | .pyNoneRes => .exn "TypeError"
    | .bareEmpty => .exn "ValueError"
    | .pairRes m b => .ok (.pairRet m b)

/-- Python print of one value, as used for revid and timestamp: a str
prints bare, an int prints in decimal.  The remaining shapes never
occur in a printed line of this program and get placeholders. -/
def pyPrintArg : Json → String
  | .null => "None"
  | .str s => s
  | .num n => toString n
  | .bool b => if b then "True" else "False"
  | .arr _ => "<list>"
  | .obj _ => "<dict>"

/-- The keys of revid_timestamp as Lean integers, when every key is an
int; none when some key is not (sorted on such keys can raise
TypeError, and they never occur in well-formed responses). -/
def jsonIntKeys : List (Json × Json) → Option (List Int)
  | [] => some []
  | (k, _) :: rest =>
    match k with
    | .num n => (jsonIntKeys rest).map (fun ns => n :: ns)
    | _ => none

/-- display_revinfo (lines 222-228): sort the revids ascending and
print one line revid timestamp per entry. -/
def display_revinfo (revinfo : List (Json × Json)) : Option (List String) :=
  match jsonIntKeys revinfo with
  | none => none
  | some ks =>
    let revids := List.insertionSort (fun a b => a ≤ b) ks
    some (revids.map (fun revid =>
      pyPrintArg (.num revid) ++ " " ++ pyPrintArg (dictGetD revinfo (.num revid) .null)))

/-! ## The batch loop and the retry loop -/

/-- The observable events of a run: the batches of revid strings sent
as HTTP requests, in order, and the revision lines printed to standard
output, in order.  The config dump that a verbose run prints before
sampling is a diagnostic, not a revision line, and is not recorded. -/
structure Trace where
  requests : List (List String)
  output : List String
  deriving DecidableEq

def Trace.append (t u : Trace) : Trace := ⟨t.requests ++ u.requests, t.output ++ u.output⟩

/-- An element of the list handed to do_revrange: ints on the first
pass over the range, strings on the retry passes. -/
inductive RangeElt where
  | intElt (n : Nat)
  | strElt (s : String)
  deriving DecidableEq

/-- Python str(revid) in the batch comprehension of do_revrange. -/
def pyStr : RangeElt → String
  | .intElt n => pyStrOfNat n
  | .strElt s => s

/-- The while loop of do_revrange (lines 235-246), recursing on the
remaining revrange.  Each iteration sends one batch (recorded in the
trace before the response is examined), unpacks the get_revinfo result
(line 238; unpacking the Python None raises TypeError), extends redo
with the bad ids and prints the accepted revisions.  The 5 second
sleep between batches has no observable effect beyond timing. -/
def do_revrange_loop (serve : List String → HttpResp) (revrange : List RangeElt)
    (redo : List String) : PyResult (List String) × Trace :=
  match revrange with
  | [] =>
    -- batch, the str image of revrange[:10], is empty exactly when
    -- revrange is: the while batch guard fails and redo is returned
    (.ok redo, ⟨[], []⟩)
  | r :: rs =>
    let batch := ((r :: rs).take 10).map pyStr
    match get_revinfo serve batch with
    | .exn e => (.exn e, ⟨[batch], []⟩)
    | .ok .pyNone => (.exn "TypeError", ⟨[batch], []⟩)
    | .ok (.pairRet revinfo badrevs) =>
      match display_revinfo revinfo with
      | none => (.exn "TypeError", ⟨[batch], []⟩)
      | some lines =>
        let rest := do_revrange_loop serve ((r :: rs).drop 10) (redo ++ badrevs)
        (rest.1, Trace.append ⟨[batch], lines⟩ rest.2)
termination_by revrange.length
decreasing_by
  simp only [List.length_drop, List.length_cons]
  omega

/-- do_revrange (lines 231-246): run the batch loop with an empty redo
accumulator. -/
def do_revrange (serve : List String → HttpResp) (revrange : List RangeElt) :
    PyResult (List String) × Trace :=
  do_revrange_loop serve revrange []

/-- int applied to each element left to right, stopping at the first
failure, as a Python comprehension evaluates. -/
def pyIntList : List String → Option (List Nat)
  | [] => some []
  | s :: rest => do
    let n ← pyIntOfStr s
    let ns ← pyIntList rest
    pure (n :: ns)

/-- The comprehension building the next candidate list in do_main
(line 261): str(int(rev) + 1) for each collected bad id; int of a
non-numeric string raises ValueError, modelled as none. -/
def build_new_range (redo : List String) : Option (List RangeElt) :=
  (pyIntList redo).map (fun ns => ns.map (fun n => RangeElt.strElt (pyStrOfNat (n + 1))))

/-- Result of the sampling phase of a run. -/
inductive Outcome where
  | okDone
  | exn (e : String)
  | outOfFuel
  deriving DecidableEq

/-- The while redo loop of do_main (lines 260-262).  fuel bounds the
number of retry passes the model will execute; outOfFuel marks a run
still looping after that many passes (the Python loop has no bound). -/
def retryLoop (serve : List String → HttpResp) : Nat → List String → Outcome × Trace
  | fuel, redo =>
    if redo = [] then (.okDone, ⟨[], []⟩)
    else
      match fuel with
      | 0 => (.outOfFuel, ⟨[], []⟩)
      | fuel' + 1 =>
        match build_new_range redo with
        | none => (.exn "ValueError", ⟨[], []⟩)
        | some new_range =>
          match do_revrange serve new_range with
          | (.exn e, tr) => (.exn e, tr)
          | (.ok redo', tr) =>
            let rest := retryLoop serve fuel' redo'
            (rest.1, tr.append rest.2)

/-- Python range(start, stop, step) for a positive step and the
nonnegative start this program always passes: the ids
start, start + step, start + 2 * step, ... that are less than stop. -/
def pythonRange (start : Nat) (stop : Int) (step : Nat) : List Nat :=
  let count := ((stop - (start : Int)) + (step : Int) - 1).toNat / step
  (List.range count).map (fun i => start + step * i)

/-! ## Option parsing -/

/-- The value bound to the end_rev key of the args dict.  It starts as
Python None (unset), an -e option stores the given string, and
check_opts may overwrite it with the value returned by get_max_rev,
which is a JSON value on success and None on failure. -/
inductive EndRev where
  | unset
  | strVal (s : String)
  | jsonVal (j : Json)

/-- Python truthiness of a JSON value, for the tests on end_rev. -/
def jsonTruthy : Json → Bool
  | .null => false
  | .str s => !s.isEmpty
  | .num n => n != 0
  | .bool b => b
  | .arr elts => !elts.isEmpty
  | .obj fields => !fields.isEmpty

def EndRev.truthy : EndRev → Bool
  | .unset => false
  | .strVal s => !s.isEmpty
  | .jsonVal j => jsonTruthy j

/-- The args dict after get_default_opts and option processing. -/
structure Args where
  domain : Option String
  start_rev : String
  end_rev : EndRev
  dryrun : Bool
  verbose : Bool

/-- get_default_opts (lines 47-52). -/
def get_default_opts : Args :=
  { domain := none, start_rev := "1", end_rev := .unset, dryrun := false, verbose := false }

/-- One iteration of the option loop in process_opts (lines 85-99).
The error value stands for the usage() calls: help and the defensive
unknown-option branch both print usage and exit with status 1. -/
def applyOpt (args : Args) (ov : String × String) : Except Unit Args :=
  let opt := ov.1
  let val := ov.2
  if opt = "-d" ∨ opt = "--domain" then .ok { args with domain := some val }
  else if opt = "-e" ∨ opt = "--endrev" then .ok { args with end_rev := .strVal val }
  else if opt = "-s" ∨ opt = "--startrev" then .ok { args with start_rev := val }
  else if opt = "-D" ∨ opt = "--dryrun" then .ok { args with dryrun := true }
  else if opt = "-v" ∨ opt = "--verbose" then .ok { args with verbose := true }
  else if opt = "-h" ∨ opt = "--help" then .error ()
  else .error ()

/-- Result of configuration resolution.  usageExit carries the exit
status of usage(), always 1.  raised marks an uncaught exception
(reachable only on arg shapes process_opts never builds). -/
inductive CheckResult where
  | usageExit (status : Nat)
  | raised (e : String)
  | okArgs (args : Args)

/-- check_opts (lines 55-66), paired with the number of outbound HTTP
requests it performs.  maxResp is the response the max-revision GET
would receive.  Checks run in source order: domain, then startrev, then
a nonempty endrev must be numeric, and finally a falsy endrev (unset or
the empty string) is resolved by get_max_rev, whose result, None
included, is stored into end_rev. -/
def check_opts (maxResp : HttpResp) (args : Args) : CheckResult × Nat :=
  if args.domain = none ∨ args.domain = some "" then (.usageExit 1, 0)
  else if !pyIsdigit args.start_rev then (.usageExit 1, 0)
  else if args.end_rev.truthy then
    match args.end_rev with
    | .strVal s =>
      if !pyIsdigit s then (.usageExit 1, 0) else (.okArgs args, 0)
    | .jsonVal _ => (.raised "AttributeError", 0)
    | .unset => (.okArgs args, 0)
  else
    match get_max_rev maxResp with
    | some j => (.okArgs { args with end_rev := .jsonVal j }, 1)
    | none => (.okArgs { args with end_rev := .unset }, 1)

/-- The outcome of getopt.gnu_getopt: either a GetoptError message or
the parsed (option, value) pairs plus the positional remainder. -/
abbrev GetoptResult : Type := Except String (List (String × String) × List String)

/-- process_opts (lines 69-105): a GetoptError prints usage and exits;
then the option loop runs (help or an unknown option exits via usage);
a nonempty remainder exits via usage; finally check_opts validates and
resolves. -/
def process_opts (maxResp : HttpResp) (g : GetoptResult) : CheckResult × Nat :=
  match g with
  | .error _ => (.usageExit 1, 0)
  | .ok (options, remainder) =>
    match options.foldlM applyOpt get_default_opts with
    | .error () => (.usageExit 1, 0)
    | .ok args =>
      if remainder ≠ [] then (.usageExit 1, 0)
      else check_opts maxResp args

/-- Python int() applied to the resolved end_rev value in do_main:
int(None) raises TypeError, int of a non-numeric string raises
ValueError, ints pass through. -/
def pyIntOfEndRev : EndRev → PyResult Int
  | .unset => .exn "TypeError"
  | .strVal s =>
    match pyIntOfStr s with
    | some n => .ok (n : Int)
    | none => .exn "ValueError"
  | .jsonVal (.num n) => .ok n
  | .jsonVal (.str s) =>
    match pyIntOfStr s with
    | some n => .ok (n : Int)
    | none => .exn "ValueError"
  | .jsonVal _ => .exn "TypeError"

/-- Lines 254-262 of do_main, after process_opts has produced args:
convert start and end to ints (int of a missing end revision raises),
build the sampling range, run the first do_revrange pass, then the
retry loop.  The optional verbose config dump and the sleeps are not
observable in the trace. -/
def run_sampling (serve : List String → HttpResp) (fuel : Nat) (args : Args) :
    Outcome × Trace :=
  match pyIntOfStr args.start_rev with
  | none => (.exn "ValueError", ⟨[], []⟩)
  | some start =>
    match pyIntOfEndRev args.end_rev with
    | .exn e => (.exn e, ⟨[], []⟩)
    | .ok stop =>
      let revrange := (pythonRange start stop 10000000).map RangeElt.intElt
      match do_revrange serve revrange with
      | (.exn e, tr) => (.exn e, tr)
      | (.ok redo, tr) =>
        let rest := retryLoop serve fuel redo
        (rest.1, tr.append rest.2)

/-- Result of a whole invocation. -/
inductive MainResult where
  | usageExit (status : Nat)
  | run (out : Outcome) (tr : Trace)

/-- do_main (lines 249-262) paired with the total number of outbound
HTTP requests (the possible max-revision lookup plus one per batch). -/
def do_main (maxResp : HttpResp) (serve : List String → HttpResp) (fuel : Nat)
    (g : GetoptResult) : MainResult × Nat :=
  match process_opts maxResp g with
  | (.usageExit s, n) => (.usageExit s, n)
  | (.raised e, n) => (.run (.exn e) ⟨[], []⟩, n)
  | (.okArgs args, n) =>
    let r := run_sampling serve fuel args
    (.run r.1 r.2, n + r.2.requests.length)

/-- Consecutive groups of at most 10, in order: the batching that
revrange[:10] / revrange[10:] performs across the loop. -/
def chunks10 : List α → List (List α)
  | [] => []
  | x :: xs => (x :: xs).take 10 :: chunks10 ((x :: xs).drop 10)
termination_by l => l.length
decreasing_by
  simp only [List.length_drop, List.length_cons]
  omega

/-! ## Concrete fixtures

Response bodies and oracles used to evaluate the model on concrete
inputs.  They are test fixtures, not translations of source code. -/

/-- A 200 response whose query object only has a badrevids section for
revision id 5 and no pages section. -/
def badOnlyBody : Json :=
  .obj [("query", .obj [("badrevids", .obj [("5", .obj [("revid", .num 5), ("missing", .str "")])])])]

def serveBadOnly : List String → HttpResp := fun _ => ⟨200, some badOnlyBody⟩

/-- An oracle whose responses are 200 with an empty pages section and
no bad ids. -/
def serveEmptyPages : List String → HttpResp :=
  fun _ => ⟨200, some (.obj [("query", .obj [("pages", .obj [])])])⟩

/-- An oracle that always fails with HTTP 500. -/
def serve500 : List String → HttpResp := fun _ => ⟨500, none⟩

/-- An oracle serving unparseable bodies with status 200. -/
def serveUnparseable : List String → HttpResp := fun _ => ⟨200, none⟩

/-- A well-formed page entry for one accepted revision id. -/
def pageFor (n : Int) (ts : String) : Json :=
  .obj [("revisions", .arr [.obj [("revid", .num n), ("timestamp", .str ts)]])]

/-- Oracle for the retry chain 5, 6, 7: querying id 6 reports it bad
(with an empty pages section so that the response parses), querying
id 7 accepts it; anything else gets an empty pages response. -/
def serveChain67 : List String → HttpResp := fun batch =>
  if batch = ["6"] then
    ⟨200, some (.obj [("query", .obj [("badrevids", .obj [("6", .obj [])]),
                                      ("pages", .obj [])])])⟩
  else if batch = ["7"] then
    ⟨200, some (.obj [("query", .obj [("pages", .obj [("7", pageFor 7 "ts-7")])])])⟩
  else ⟨200, some (.obj [("query", .obj [("pages", .obj [])])])⟩

/-- A successful max-revision response resolving to revid 12345. -/
def goodMaxBody : Json :=
  .obj [("query", .obj [("allrevisions", .arr [.obj [("revisions", .arr [.obj [("revid", .num 12345)]])]])])]

def maxRespOk : HttpResp := ⟨200, some goodMaxBody⟩

def maxRespFail : HttpResp := ⟨500, none⟩

/-- The id a badrevids key stands for: the service marks the ids it was
asked about, which in every model run are decimal strings. -/
def badKey (bad : Nat → Bool) (id : String) : Bool :=
  bad ((pyIntOfStr id).getD 0)

/-- A functional service: it answers every batch with status 200, lists
the queried ids with bad id-number under badrevids, and serves one page
with one revision per remaining id.  This realizes the service model
behind the retry policy: an id is either accepted or reported bad. -/
def serveBad (bad : Nat → Bool) (batch : List String) : HttpResp :=
  ⟨200, some (.obj [("query", .obj [
    ("badrevids", .obj ((batch.filter (badKey bad)).map (fun id => (id, Json.obj [])))),
    ("pages", .obj ((batch.filter (fun id => !badKey bad id)).map (fun id =>
      (id, pageFor ((pyIntOfStr id).getD 0 : Int) ("ts-" ++ id)))))])])⟩

/-- A nonempty non-numeric endrev value: the shape check_opts rejects
via usage.  The empty string is falsy in Python, so check_opts treats
it as unset and resolves it remotely instead of rejecting it. -/
def endrevNonNumeric : EndRev → Bool
  | .strVal s => !s.isEmpty && !pyIsdigit s
  | _ => false

/-- The invalid command lines of claim C5, phrased on the getopt
outcome: a GetoptError (unrecognized option), an option-loop exit
(help, or the defensive unknown-option branch), a leftover positional
argument, a missing or empty domain, a non-numeric startrev, or a
nonempty non-numeric endrev. -/
def badCmdlineB (g : GetoptResult) : Bool :=
  match g with
  | .error _ => true
  | .ok (options, remainder) =>
    match options.foldlM applyOpt get_default_opts with
    | .error () => true
    | .ok a =>
      !remainder.isEmpty || a.domain.isNone || a.domain == some "" ||
      !pyIsdigit a.start_rev || endrevNonNumeric a.end_rev

/-- The command line --domain en.wikipedia.org --endrev with an empty
endrev value, as getopt hands it to process_opts. -/
def cmdlineEmptyEndrev : GetoptResult :=
  .ok ([("--domain", "en.wikipedia.org"), ("--endrev", "")], [])

/-- The command line --domain x with no end revision. -/
def cmdlineDomainOnly : GetoptResult := .ok ([("--domain", "x")], [])

/-! ## Lemmas about the decimal conversions -/

theorem isDigitChar_digit_char (d : Nat) : isDigitChar (digit_char d) = true := by
  rcases d with _ | _ | _ | _ | _ | _ | _ | _ | _ | d <;> rfl

theorem digit_char_toNat (d : Nat) (h : d < 10) : (digit_char d).toNat = 48 + d := by
  interval_cases d <;> rfl

theorem natToStrGo_fuel (f1 f2 n : Nat) (acc : List Char) (h1 : n < f1) (h2 : n < f2) :
    natToStrGo f1 n acc = natToStrGo f2 n acc := by
  induction f1 generalizing f2 n acc with
  | zero => omega
  | succ a ih =>
    match f2, h2 with
    | b + 1, h2 =>
      simp only [natToStrGo]
      by_cases hn : n < 10
      · simp [hn]
      · simp only [if_neg hn]
        apply ih
        · have := Nat.div_lt_self (by omega : 0 < n) (by omega : 1 < 10)
          omega
        · have := Nat.div_lt_self (by omega : 0 < n) (by omega : 1 < 10)
          omega

theorem natToStrGo_append (fuel n : Nat) (acc : List Char) (h : n < fuel) :
    natToStrGo fuel n acc = natToStrGo fuel n [] ++ acc := by
  induction fuel generalizing n acc with
  | zero => omega
  | succ a ih =>
    simp only [natToStrGo]
    by_cases hn : n < 10
    · simp [hn]
    · simp only [if_neg hn]
      have hd : n / 10 < a := by
        have := Nat.div_lt_self (by omega : 0 < n) (by omega : 1 < 10)
        omega
      rw [ih (n / 10) (digit_char (n % 10) :: acc) hd,
        ih (n / 10) [digit_char (n % 10)] hd]
      simp

theorem natToStrGo_digits (fuel n : Nat) (h : n < fuel) :
    ∀ c ∈ natToStrGo fuel n [], isDigitChar c = true := by
  induction fuel generalizing n with
  | zero => omega
  | succ a ih =>
    simp only [natToStrGo]
    by_cases hn : n < 10
    · simp only [if_pos hn, List.mem_singleton]
      intro c hc
      subst hc
      exact isDigitChar_digit_char _
    · simp only [if_neg hn]
      have hd : n / 10 < a := by
        have := Nat.div_lt_self (by omega : 0 < n) (by omega : 1 < 10)
        omega
      rw [natToStrGo_append a (n / 10) _ hd]
      intro c hc
      rcases List.mem_append.mp hc with h1 | h1
      · exact ih (n / 10) hd c h1
      · simp only [List.mem_singleton] at h1
        subst h1
        exact isDigitChar_digit_char _

theorem natToStrGo_ne_nil (fuel n : Nat) (acc : List Char) (h : n < fuel) :
    natToStrGo fuel n acc ≠ [] := by
  induction fuel generalizing n acc with
  | zero => omega
  | succ a ih =>
    simp only [natToStrGo]
    by_cases hn : n < 10
    · simp [hn]
    · simp only [if_neg hn]
      apply ih
      have := Nat.div_lt_self (by omega : 0 < n) (by omega : 1 < 10)
      omega

theorem natToStrGo_foldl (fuel n a : Nat) (h : n < fuel) :
    List.foldl (fun a c => 10 * a + (c.toNat - 48)) a (natToStrGo fuel n []) =
      a * 10 ^ (natToStrGo fuel n []).length + n := by
  induction fuel generalizing n a with
  | zero => omega
  | succ g ih =>
    by_cases hn : n < 10
    · have hrepr : natToStrGo (g + 1) n [] = [digit_char (n % 10)] := by
        simp [natToStrGo, hn]
      rw [hrepr]
      simp only [List.foldl_cons, List.foldl_nil, List.length_singleton]
      have : n % 10 = n := Nat.mod_eq_of_lt hn
      rw [this, digit_char_toNat n hn]
      omega
    · have hd : n / 10 < g := by
        have := Nat.div_lt_self (by omega : 0 < n) (by omega : 1 < 10)
        omega
      have hrepr : natToStrGo (g + 1) n [] =
          natToStrGo g (n / 10) [] ++ [digit_char (n % 10)] := by
        simp only [natToStrGo, if_neg hn]
        exact natToStrGo_append g (n / 10) _ hd
      rw [hrepr]
      rw [List.foldl_append]
      simp only [List.foldl_cons, List.foldl_nil, List.length_append, List.length_singleton]
      rw [ih (n / 10) a hd]
      rw [digit_char_toNat (n % 10) (Nat.mod_lt n (by omega))]
      have hmd : 10 * (n / 10) + n % 10 = n := Nat.div_add_mod n 10
      rw [pow_succ]
      ring_nf
      omega

/-- Round trip: the model of int inverts the model of str on every
nonnegative integer. -/
theorem pyIntOfStr_pyStrOfNat (n : Nat) : pyIntOfStr (pyStrOfNat n) = some n := by
  have hlt : n < n + 1 := Nat.lt_succ_self n
  have hdata : (pyStrOfNat n).data = natToStrGo (n + 1) n [] := rfl
  have hdig : pyIsdigit (pyStrOfNat n) = true := by
    simp only [pyIsdigit, hdata, Bool.and_eq_true, Bool.not_eq_true']
    constructor
    · simp only [List.isEmpty_eq_false_iff_exists_mem]
      rcases List.exists_mem_of_ne_nil _ (natToStrGo_ne_nil (n + 1) n [] hlt) with ⟨c, hc⟩
      exact ⟨c, hc⟩
    · rw [List.all_eq_true]
      intro c hc
      exact natToStrGo_digits (n + 1) n hlt c hc
  simp only [pyIntOfStr, hdig, if_pos, hdata]
  rw [natToStrGo_foldl (n + 1) n 0 hlt]
  simp

theorem badKey_pyStrOfNat (bad : Nat → Bool) (m : Nat) :
    badKey bad (pyStrOfNat m) = bad m := by
  simp [badKey, pyIntOfStr_pyStrOfNat]

theorem pyIntList_map_pyStrOfNat (nats : List Nat) :
    pyIntList (nats.map pyStrOfNat) = some nats := by
  induction nats with
  | nil => rfl
  | cons b bs ih =>
    simp [pyIntList, pyIntOfStr_pyStrOfNat, ih]

/-! ## C1, C2: behaviour of the batch lookup on no-pages and
unparseable 200 responses -/

/-- C1: the claim states that a 200 response whose query object has no
pages section makes get_revinfo treat all submitted ids as bad and
return an empty mapping with the badrevids as the bad-ids list, without
raising.  On the code this is false: get_revinfo_from_json returns a
bare empty dict (dropping the collected badrevids), and the two-name
unpacking on line 218 of get_revinfo then raises an uncaught ValueError
(cannot unpack an empty dict into two names), which also aborts
do_revrange.  Evaluated here on the 200 response whose body lists
revision id 5 under badrevids and has no pages section. -/
theorem c1_no_pages_crashes_get_revinfo :
    get_revinfo_from_json (some badOnlyBody) = .bareEmpty
    ∧ get_revinfo serveBadOnly ["5"] = .exn "ValueError"
    ∧ do_revrange serveBadOnly [RangeElt.strElt "5"] = (.exn "ValueError", ⟨[["5"]], []⟩) := by
  refine ⟨rfl, rfl, ?_⟩
  simp [do_revrange, do_revrange_loop, get_revinfo, serveBadOnly, pyStr,
    get_revinfo_from_json, Json.getField, Json.hasKey, Json.keysOf, badOnlyBody,
    List.lookup]

/-- C2: the claim states that a 200 response with malformed JSON or an
unexpected shape is converted into an unresolved-value indicator and
that no exception escapes get_revinfo or do_revrange.  On the code this
is false: get_revinfo_from_json does return the Python None, but the
two-name unpacking on line 218 of get_revinfo then raises an uncaught
TypeError (None is not iterable), which propagates through do_revrange.
Evaluated on an unparseable body and on a parseable body without a
query object. -/
theorem c2_parse_failure_crashes_get_revinfo :
    get_revinfo_from_json none = .pyNoneRes
    ∧ get_revinfo serveUnparseable ["1"] = .exn "TypeError"
    ∧ get_revinfo_from_json (some (.obj [])) = .pyNoneRes
    ∧ get_revinfo (fun _ => ⟨200, some (.obj [])⟩) ["1"] = .exn "TypeError"
    ∧ do_revrange serveUnparseable [RangeElt.intElt 1] = (.exn "TypeError", ⟨[["1"]], []⟩) := by
  refine ⟨rfl, rfl, rfl, rfl, ?_⟩
  simp [do_revrange, do_revrange_loop, get_revinfo, serveUnparseable, pyStr,
    pyStrOfNat, natToStrGo, digit_char, get_revinfo_from_json]

/-! ## C10: non-200 status crashes the run at the caller -/

/-- C10: whenever the batch request comes back with a status other than
200, get_revinfo returns the Python None; the two-name unpacking of
that result on line 238 of do_revrange raises TypeError, which nothing
catches, so the whole run aborts: shown for any oracle and nonempty
range, and concretely for a full run_sampling against a server that
always answers 500. -/
theorem c10_non200_aborts_run :
    (∀ (serve : List String → HttpResp) (batch : List String),
      (serve batch).status ≠ 200 → get_revinfo serve batch = .ok .pyNone)
    ∧ (∀ (serve : List String → HttpResp) (revrange : List RangeElt),
        revrange ≠ [] →
        (serve ((revrange.take 10).map pyStr)).status ≠ 200 →
        do_revrange serve revrange = (.exn "TypeError", ⟨[(revrange.take 10).map pyStr], []⟩))
    ∧ run_sampling serve500 0 ⟨some "x", "1", .strVal "2", false, false⟩
        = (.exn "TypeError", ⟨[["1"]], []⟩) := by
  have h1 : ∀ (serve : List String → HttpResp) (batch : List String),
      (serve batch).status ≠ 200 → get_revinfo serve batch = .ok .pyNone := by
    intro serve batch h
    simp [get_revinfo, h]
  refine ⟨h1, ?_, ?_⟩
  · intro serve revrange hne hstat
    match revrange, hne with
    | r :: rs, _ =>
      rw [do_revrange, do_revrange_loop]
      rw [h1 _ _ hstat]
  · have hr : pythonRange 1 2 10000000 = [1] := by decide
    simp [run_sampling, hr, do_revrange, do_revrange_loop, get_revinfo, serve500,
      pyStr, pyStrOfNat, natToStrGo, digit_char, pyIntOfStr, pyIsdigit, isDigitChar,
      pyIntOfEndRev]

/-- Witness for C10 at concrete inputs: a 500 response on a singleton
batch, and a one-element range against the 500 server. -/
theorem c10_non200_aborts_run_witness :
    get_revinfo serve500 ["9"] = .ok .pyNone
    ∧ do_revrange serve500 [RangeElt.intElt 1]
        = (.exn "TypeError", ⟨[["1"]], []⟩) := by
  constructor
  · exact c10_non200_aborts_run.1 serve500 ["9"] (by decide)
  · exact c10_non200_aborts_run.2.1 serve500 [RangeElt.intElt 1] (by simp) (by decide)

/-! ## C4: the candidate sequence and its batching -/

/-- Membership in the sampled range: exactly the ids
start + 10000000 * k below stop. -/
theorem pythonRange_mem (start : Nat) (stop : Int) (x : Nat) :
    x ∈ pythonRange start stop 10000000 ↔
      ∃ k : Nat, x = start + 10000000 * k ∧ (x : Int) < stop := by
  simp only [pythonRange, List.mem_map, List.mem_range]
  constructor
  · rintro ⟨i, hi, rfl⟩
    refine ⟨i, rfl, ?_⟩
    push_cast
    omega
  · rintro ⟨k, rfl, hx⟩
    refine ⟨k, ?_, rfl⟩
    push_cast at hx
    omega

theorem chunks10_flatten : ∀ (l : List α), (chunks10 l).flatten = l
  | [] => by simp [chunks10]
  | x :: xs => by
    rw [chunks10]
    rw [List.flatten_cons]
    rw [chunks10_flatten ((x :: xs).drop 10)]
    exact List.take_append_drop 10 (x :: xs)
termination_by l => l.length
decreasing_by
  simp only [List.length_drop, List.length_cons]
  omega

theorem chunks10_bounds : ∀ (l : List α), ∀ c ∈ chunks10 l, c.length ≤ 10 ∧ c ≠ []
  | [] => by simp [chunks10]
  | x :: xs => by
    intro c hc
    rw [chunks10] at hc
    rcases List.mem_cons.mp hc with h | h
    · subst h
      constructor
      · simp
      · simp
    · exact chunks10_bounds ((x :: xs).drop 10) c h
termination_by l => l.length
decreasing_by
  simp only [List.length_drop, List.length_cons]
  omega

/-- When the batch loop finishes normally, the requests it issued are
exactly the consecutive at-most-10 groups of the str image of the
range, in order. -/
theorem do_revrange_loop_requests (serve : List String → HttpResp) :
    ∀ (revrange : List RangeElt) (redo redo2 : List String) (tr : Trace),
      do_revrange_loop serve revrange redo = (.ok redo2, tr) →
      tr.requests = chunks10 (revrange.map pyStr)
  | [], redo, redo2, tr => by
    intro h
    rw [do_revrange_loop] at h
    injection h with h1 h2
    subst h2
    simp [chunks10]
  | r :: rs, redo, redo2, tr => by
    intro h
    rw [do_revrange_loop] at h
    rcases hg : get_revinfo serve (((r :: rs).take 10).map pyStr) with ret | e
    · rcases ret with _ | ⟨revinfo, badrevs⟩
      · rw [hg] at h
        dsimp only at h
        exact absurd (congrArg Prod.fst h) (by simp)
      · rw [hg] at h
        dsimp only at h
        rcases hd : display_revinfo revinfo with _ | lines
        · rw [hd] at h
          dsimp only at h
          exact absurd (congrArg Prod.fst h) (by simp)
        · rw [hd] at h
          dsimp only at h
          rcases hrest : do_revrange_loop serve ((r :: rs).drop 10) (redo ++ badrevs)
            with ⟨res, tr2⟩
          rw [hrest] at h
          dsimp only at h
          injection h with h1 h2
          subst h1
          subst h2
          have ih := do_revrange_loop_requests serve ((r :: rs).drop 10)
            (redo ++ badrevs) redo2 tr2 hrest
          show (Trace.append ⟨[((r :: rs).take 10).map pyStr], lines⟩ tr2).requests
            = chunks10 ((r :: rs).map pyStr)
          simp only [Trace.append, ih]
          rw [show (r :: rs).map pyStr = pyStr r :: rs.map pyStr from rfl, chunks10]
          simp [List.map_take, List.map_drop]
    · rw [hg] at h
      dsimp only at h
      exact absurd (congrArg Prod.fst h) (by simp)
termination_by revrange => revrange.length
decreasing_by
  simp only [List.length_drop, List.length_cons]
  omega

/-- C4: the candidate sequence contains exactly the ids
start + 10000000 * k strictly below the end id, in that order, and
do_revrange submits it as consecutive batches of at most 10 ids, in
order; concretely, start 1 and end 25000000 give the ids
1, 10000001, 20000001, sent as one batch of three. -/
theorem c4_sampling_sequence_and_batching :
    (∀ (start : Nat) (stop : Int) (x : Nat),
      x ∈ pythonRange start stop 10000000 ↔
        ∃ k : Nat, x = start + 10000000 * k ∧ (x : Int) < stop)
    ∧ (∀ (l : List String), (chunks10 l).flatten = l ∧ ∀ c ∈ chunks10 l, c.length ≤ 10 ∧ c ≠ [])
    ∧ (∀ (serve : List String → HttpResp) (revrange : List RangeElt)
        (redo2 : List String) (tr : Trace),
        do_revrange serve revrange = (.ok redo2, tr) →
        tr.requests = chunks10 (revrange.map pyStr))
    ∧ pythonRange 1 25000000 10000000 = [1, 10000001, 20000001]
    ∧ do_revrange serveEmptyPages ((pythonRange 1 25000000 10000000).map RangeElt.intElt)
        = (.ok [], ⟨[["1", "10000001", "20000001"]], []⟩) := by
  refine ⟨pythonRange_mem, ?_, ?_, by decide, ?_⟩
  · intro l
    exact ⟨chunks10_flatten l, chunks10_bounds l⟩
  · intro serve revrange redo2 tr h
    exact do_revrange_loop_requests serve revrange [] redo2 tr h
  · have h : pythonRange 1 25000000 10000000 = [1, 10000001, 20000001] := by decide
    rw [h]
    simp [do_revrange, do_revrange_loop, get_revinfo, serveEmptyPages, pyStr,
      get_revinfo_from_json, Json.getField, Json.hasKey, Json.keysOf, display_revinfo,
      jsonIntKeys, List.lookup]
    decide

/-- Witness for C4 at a concrete input: a one-element range against the
empty-pages server issues the single batch of its one id. -/
theorem c4_sampling_sequence_and_batching_witness :
    Trace.requests ⟨[["1"]], []⟩ = chunks10 ([RangeElt.intElt 1].map pyStr) := by
  apply c4_sampling_sequence_and_batching.2.2.1 serveEmptyPages [RangeElt.intElt 1] []
  simp [do_revrange, do_revrange_loop, get_revinfo, serveEmptyPages, pyStr,
    get_revinfo_from_json, Json.getField, Json.hasKey, Json.keysOf, display_revinfo,
    jsonIntKeys, List.lookup]
  decide

/-! ## C7: printed output is sorted by ascending revision id -/

theorem jsonIntKeys_of_num_keys :
    ∀ (revinfo : List (Json × Json)) (ints : List Int),
      revinfo.map Prod.fst = ints.map Json.num → jsonIntKeys revinfo = some ints := by
  intro revinfo
  induction revinfo with
  | nil =>
    intro ints hk
    have : ints = [] := by
      cases ints with
      | nil => rfl
      | cons n ns => simp at hk
    subst this
    rfl
  | cons p rest ih =>
    intro ints hk
    cases ints with
    | nil => simp at hk
    | cons n ns =>
      simp only [List.map_cons, List.cons.injEq] at hk
      rcases hk with ⟨h1, h2⟩
      rcases p with ⟨k, v⟩
      simp only at h1
      subst h1
      simp [jsonIntKeys, ih ns h2]

/-- C7: for a batch mapping whose keys are the integer revision ids
ints, display_revinfo prints one revid timestamp line per entry, the
printed id sequence being the ascending sort of ints (a permutation of
the ids, sorted), independent of the arrival order in the mapping. -/
theorem c7_output_sorted_ascending (revinfo : List (Json × Json)) (ints : List Int)
    (hk : revinfo.map Prod.fst = ints.map Json.num) :
    display_revinfo revinfo =
      some ((List.insertionSort (fun a b => a ≤ b) ints).map (fun revid =>
        pyPrintArg (.num revid) ++ " " ++ pyPrintArg (dictGetD revinfo (.num revid) .null)))
    ∧ (List.insertionSort (fun a b => a ≤ b) ints).Sorted (· ≤ ·)
    ∧ List.Perm (List.insertionSort (fun a b => a ≤ b) ints) ints := by
  refine ⟨?_, List.sorted_insertionSort _ _, List.perm_insertionSort _ _⟩
  simp only [display_revinfo, jsonIntKeys_of_num_keys revinfo ints hk]

/-- Witness for C7: a two-entry mapping arriving in descending order. -/
theorem c7_output_sorted_ascending_witness :
    display_revinfo [(Json.num 3, Json.str "t3"), (Json.num 1, Json.str "t1")] =
      some ((List.insertionSort (fun a b => a ≤ b) [(3 : Int), 1]).map (fun revid =>
        pyPrintArg (.num revid) ++ " " ++
          pyPrintArg (dictGetD [(Json.num 3, Json.str "t3"), (Json.num 1, Json.str "t1")]
            (.num revid) .null)))
    ∧ (List.insertionSort (fun a b => a ≤ b) [(3 : Int), 1]).Sorted (· ≤ ·)
    ∧ List.Perm (List.insertionSort (fun a b => a ≤ b) [(3 : Int), 1]) [3, 1] :=
  c7_output_sorted_ascending
    [(Json.num 3, Json.str "t3"), (Json.num 1, Json.str "t1")] [3, 1] rfl

/-! ## C9: the dry-run flag is parsed but cannot influence the run -/

/-- C9: two runs over the same oracle whose configurations differ only
in the dry-run flag are indistinguishable: run_sampling produces the
same outcome, the same HTTP request batches and the same printed lines,
because the flag, although parsed into the configuration by the -D and
dryrun options, is never consulted by the request logic. -/
theorem c9_dryrun_noninterference :
    (∀ (serve : List String → HttpResp) (fuel : Nat) (domain : Option String)
      (start_rev : String) (end_rev : EndRev) (verbose : Bool),
      run_sampling serve fuel ⟨domain, start_rev, end_rev, true, verbose⟩
        = run_sampling serve fuel ⟨domain, start_rev, end_rev, false, verbose⟩)
    ∧ (∀ args : Args, applyOpt args ("-D", "") = .ok { args with dryrun := true })
    ∧ (∀ args : Args, applyOpt args ("--dryrun", "") = .ok { args with dryrun := true }) := by
  refine ⟨fun serve fuel d s e v => rfl, fun args => ?_, fun args => ?_⟩
  · simp [applyOpt]
  · simp [applyOpt]



/-! ## C5: invalid command lines fail fast -/

/-- C5 as claimed is falsified by the empty-string end revision: the
command line --domain en.wikipedia.org --endrev with the empty value
carries a non-numeric end revision (isdigit of the empty string is
false), yet the program does not print usage and exit: the empty string
is falsy, so check_opts treats it as unset, performs the max-revision
network request, and proceeds with the run. -/
theorem c5_counterexample_empty_endrev :
    pyIsdigit "" = false
    ∧ process_opts maxRespOk cmdlineEmptyEndrev
        = (.okArgs ⟨some "en.wikipedia.org", "1", .jsonVal (.num 12345), false, false⟩, 1)
    ∧ process_opts maxRespOk cmdlineEmptyEndrev ≠ (.usageExit 1, 0)
    ∧ (process_opts maxRespOk cmdlineEmptyEndrev).2 = 1 := by
  have heq : process_opts maxRespOk cmdlineEmptyEndrev
      = (.okArgs ⟨some "en.wikipedia.org", "1", .jsonVal (.num 12345), false, false⟩, 1) := rfl
  refine ⟨rfl, heq, ?_, rfl⟩
  intro hc
  rw [heq] at hc
  exact CheckResult.noConfusion (congrArg Prod.fst hc)

/-- C5 amended: every command line with an unrecognized option, a
leftover positional argument, a missing or empty domain, a non-numeric
start revision, or a nonempty non-numeric end revision makes
process_opts print usage and exit with status 1 before any network
request; an empty end revision value is instead treated as unset and
resolved remotely. -/
theorem c5_amended_config_errors (maxResp : HttpResp) (g : GetoptResult)
    (h : badCmdlineB g = true) : process_opts maxResp g = (.usageExit 1, 0) := by
  rcases g with msg | ⟨options, remainder⟩
  · rfl
  · simp only [badCmdlineB] at h
    simp only [process_opts]
    rcases hf : options.foldlM applyOpt get_default_opts with e | a
    · rfl
    · rw [hf] at h
      dsimp only at h
      dsimp only
      by_cases hr : remainder = []
      · subst hr
        rw [if_neg (by simp)]
        simp only [List.isEmpty_nil, Bool.not_true, Bool.false_or, Bool.or_eq_true,
          Option.isNone_iff_eq_none, beq_iff_eq, Bool.not_eq_true', decide_eq_true_eq] at h
        rcases h with ((h | h) | h) | h
        · simp [check_opts, h]
        · simp [check_opts, h]
        · by_cases hd : a.domain = none ∨ a.domain = some ""
          · simp [check_opts, hd]
          · simp [check_opts, hd, h]
        · by_cases hd : a.domain = none ∨ a.domain = some ""
          · simp [check_opts, hd]
          · by_cases hs : pyIsdigit a.start_rev
            · rcases he : a.end_rev with _ | s | j
              · rw [he] at h
                simp [endrevNonNumeric] at h
              · rw [he] at h
                simp only [endrevNonNumeric, Bool.and_eq_true, Bool.not_eq_true'] at h
                simp [check_opts, hd, hs, he, EndRev.truthy, h.1, h.2]
              · rw [he] at h
                simp [endrevNonNumeric] at h
            · simp [check_opts, hd, hs]
      · rw [if_pos hr]

/-- Witness for C5 amended: an unrecognized option reported by getopt. -/
theorem c5_amended_config_errors_witness :
    process_opts maxRespOk (Except.error "option --frob not recognized") = (.usageExit 1, 0) :=
  c5_amended_config_errors maxRespOk (Except.error "option --frob not recognized") rfl

/-! ## C6: unresolved max-revision lookup -/

/-- C6 as claimed is falsified: with the domain given, no end revision
and a failing max-revision lookup, the program does not fail with a
usage message; process_opts stores the Python None and proceeds, and
the run then aborts with an uncaught TypeError when do_main converts
the missing end revision to an integer. -/
theorem c6_counterexample_unresolved_maxrev :
    process_opts maxRespFail cmdlineDomainOnly
      = (.okArgs ⟨some "x", "1", .unset, false, false⟩, 1)
    ∧ process_opts maxRespFail cmdlineDomainOnly ≠ (.usageExit 1, 0)
    ∧ run_sampling serveEmptyPages 5 ⟨some "x", "1", .unset, false, false⟩
        = (.exn "TypeError", ⟨[], []⟩) := by
  have heq : process_opts maxRespFail cmdlineDomainOnly
      = (.okArgs ⟨some "x", "1", .unset, false, false⟩, 1) := rfl
  refine ⟨heq, ?_, rfl⟩
  intro hc
  rw [heq] at hc
  exact CheckResult.noConfusion (congrArg Prod.fst hc)

/-- C6 amended: when the end revision is unset (falsy) and get_max_rev
cannot resolve a value, check_opts does not exit via usage: it stores
the unresolved None into the configuration after its one network
request, and the later int conversion in do_main raises an uncaught
TypeError, aborting the run with no usage message. -/
theorem c6_amended_unresolved_end_proceeds :
    (∀ (maxResp : HttpResp) (args : Args) (d : String),
      args.domain = some d → d ≠ "" → pyIsdigit args.start_rev = true →
      args.end_rev.truthy = false → get_max_rev maxResp = none →
      check_opts maxResp args = (.okArgs { args with end_rev := .unset }, 1))
    ∧ (∀ (serve : List String → HttpResp) (fuel : Nat) (args : Args),
        pyIsdigit args.start_rev = true → args.end_rev = .unset →
        run_sampling serve fuel args = (.exn "TypeError", ⟨[], []⟩)) := by
  constructor
  · intro maxResp args d hdom hne hs htr hmax
    have hd : ¬(args.domain = none ∨ args.domain = some "") := by
      rw [hdom]
      rintro (hc | hc)
      · exact Option.noConfusion hc
      · exact hne (Option.some.inj hc)
    simp [check_opts, hd, hs, htr, hmax]
  · intro serve fuel args hs he
    simp only [run_sampling, pyIntOfStr, hs, if_true, he, pyIntOfEndRev]

/-- Witness for C6 amended at the concrete failing configuration. -/
theorem c6_amended_unresolved_end_proceeds_witness :
    check_opts maxRespFail ⟨some "x", "1", .unset, false, false⟩
      = (.okArgs ⟨some "x", "1", .unset, false, false⟩, 1)
    ∧ run_sampling serveEmptyPages 3 ⟨some "x", "1", .unset, false, false⟩
        = (.exn "TypeError", ⟨[], []⟩) :=
  ⟨c6_amended_unresolved_end_proceeds.1 maxRespFail
      ⟨some "x", "1", .unset, false, false⟩ "x" rfl (by decide) (by decide) rfl rfl,
    c6_amended_unresolved_end_proceeds.2 serveEmptyPages 3
      ⟨some "x", "1", .unset, false, false⟩ (by decide) rfl⟩

/-! ## C3: retry passes query each bad id plus one until a pass is clean -/

/-- C3: the retry loop of do_main.  An empty redo list ends the loop at
once; a nonempty redo list whose ids parse as the integers nats makes
the next pass run do_revrange on exactly the ids nats + 1 (as strings)
and continue with whatever bad ids that pass reports; and concretely,
starting from bad id 5 against a service that also rejects 6 but
accepts 7, the run queries 6, then 7, and stops, printing the accepted
revision. -/
theorem c3_retry_increments_until_clean :
    (∀ (serve : List String → HttpResp) (fuel : Nat),
      retryLoop serve fuel [] = (.okDone, ⟨[], []⟩))
    ∧ (∀ (serve : List String → HttpResp) (fuel : Nat) (redo : List String)
        (nats : List Nat), redo ≠ [] → pyIntList redo = some nats →
        retryLoop serve (fuel + 1) redo =
          match do_revrange serve
              (nats.map (fun n => RangeElt.strElt (pyStrOfNat (n + 1)))) with
          | (.exn e, tr) => (.exn e, tr)
          | (.ok redo2, tr) =>
            ((retryLoop serve fuel redo2).1, tr.append (retryLoop serve fuel redo2).2))
    ∧ retryLoop serveChain67 5 ["5"] = (.okDone, ⟨[["6"], ["7"]], ["7 ts-7"]⟩) := by
  refine ⟨?_, ?_, ?_⟩
  · intro serve fuel
    rw [retryLoop.eq_def]
    simp
  · intro serve fuel redo nats hne hint
    rw [retryLoop.eq_def]
    dsimp only
    rw [if_neg hne]
    have hb : build_new_range redo
        = some (nats.map (fun n => RangeElt.strElt (pyStrOfNat (n + 1)))) := by
      simp [build_new_range, hint]
    rw [hb]
  · simp [retryLoop, build_new_range, pyIntList, pyIntOfStr, pyIsdigit, isDigitChar,
      pyStrOfNat, natToStrGo, digit_char, do_revrange, do_revrange_loop, get_revinfo,
      serveChain67, pyStr, get_revinfo_from_json, Json.getField, Json.hasKey, Json.keysOf,
      Json.asArr, pagesInto, revisionsInto, pageFor, dictInsert, display_revinfo,
      jsonIntKeys, List.insertionSort, List.orderedInsert, dictGetD, pyPrintArg,
      Trace.append, List.lookup, Json.beq]
    decide

/-- Witness for C3 at a concrete input: one pass from bad id 5 queries
exactly the incremented id 6. -/
theorem c3_retry_increments_until_clean_witness :
    retryLoop serveChain67 1 ["5"] =
      match do_revrange serveChain67
          ([5].map (fun n => RangeElt.strElt (pyStrOfNat (n + 1)))) with
      | (.exn e, tr) => (.exn e, tr)
      | (.ok redo2, tr) =>
        ((retryLoop serveChain67 0 redo2).1, tr.append (retryLoop serveChain67 0 redo2).2) :=
  c3_retry_increments_until_clean.2.1 serveChain67 0 ["5"] [5] (by simp) (by decide)

/-! ## C8: termination of the retry loop -/

theorem lookup_map_self (l : List String) (f : String → Json) (a : String) (ha : a ∈ l) :
    List.lookup a (l.map fun x => (x, f x)) = some (f a) := by
  induction l with
  | nil => simp at ha
  | cons x xs ih =>
    simp only [List.map_cons, List.lookup]
    by_cases hax : a = x
    · subst hax
      simp
    · have hbeq : (a == x) = false := beq_eq_false_iff_ne.mpr hax
      rw [hbeq]
      exact ih (by rcases List.mem_cons.mp ha with h | h; exact absurd h hax; exact h)

theorem dictInsert_num_keys (d : List (Json × Json))
    (hd : ∀ p ∈ d, ∃ z : Int, p.1 = Json.num z) (n : Int) (v : Json) :
    ∀ p ∈ dictInsert d (Json.num n) v, ∃ z : Int, p.1 = Json.num z := by
  intro p hp
  rw [dictInsert] at hp
  by_cases hc : d.any (fun p => p.1 == Json.num n)
  · rw [if_pos hc] at hp
    rcases List.mem_map.mp hp with ⟨q, hq, hqe⟩
    by_cases hqk : (q.1 == Json.num n) = true
    · rw [if_pos hqk] at hqe
      exact ⟨n, by rw [← hqe]⟩
    · rw [if_neg hqk] at hqe
      subst hqe
      exact hd q hq
  · rw [if_neg hc] at hp
    rcases List.mem_append.mp hp with h | h
    · exact hd p h
    · simp only [List.mem_singleton] at h
      subst h
      exact ⟨n, rfl⟩

theorem jsonIntKeys_some_of_num_keys (m : List (Json × Json))
    (h : ∀ p ∈ m, ∃ z : Int, p.1 = Json.num z) : ∃ ks, jsonIntKeys m = some ks := by
  induction m with
  | nil => exact ⟨[], rfl⟩
  | cons p rest ih =>
    obtain ⟨z, hz⟩ := h p (by simp)
    obtain ⟨ks, hks⟩ := ih (fun q hq => h q (by simp [hq]))
    rcases p with ⟨k, v⟩
    simp only at hz
    subst hz
    exact ⟨z :: ks, by simp [jsonIntKeys, hks]⟩

theorem display_some_of_num_keys (m : List (Json × Json))
    (h : ∀ p ∈ m, ∃ z : Int, p.1 = Json.num z) :
    ∃ lines, display_revinfo m = some lines := by
  obtain ⟨ks, hks⟩ := jsonIntKeys_some_of_num_keys m h
  refine ⟨(List.insertionSort (fun a b => a ≤ b) ks).map (fun revid =>
    pyPrintArg (Json.num revid) ++ " " ++ pyPrintArg (dictGetD m (Json.num revid) Json.null)), ?_⟩
  simp [display_revinfo, hks]

/-- On the canonical response shape (a query object with a badrevids
object and a pages object), parsing yields the pages fold and the
badrevids keys. -/
theorem get_revinfo_from_json_canonical (badsList pagesList : List (String × Json)) :
    get_revinfo_from_json (some (Json.obj [("query", Json.obj
        [("badrevids", Json.obj badsList), ("pages", Json.obj pagesList)])])) =
      match List.foldlM (pagesInto (Json.obj pagesList)) [] (pagesList.map Prod.fst) with
      | some m => FromJsonResult.pairRes m (badsList.map Prod.fst)
      | none => FromJsonResult.pyNoneRes := by
  simp [get_revinfo_from_json, Json.getField, Json.hasKey, Json.keysOf, List.lookup,
    List.any_cons, List.any_nil]
  rcases List.foldlM (pagesInto (Json.obj pagesList)) [] (pagesList.map Prod.fst)
    with _ | m
  · rfl
  · rfl

theorem pagesInto_canonical (l : List String) (gf : String → Int) (hf : String → String)
    (acc : List (Json × Json)) (id : String) (hid : id ∈ l) :
    pagesInto (Json.obj (l.map (fun x => (x, pageFor (gf x) (hf x))))) acc id =
      some (dictInsert acc (Json.num (gf id)) (Json.str (hf id))) := by
  have hlk := lookup_map_self l (fun x => pageFor (gf x) (hf x)) id hid
  simp only [pagesInto, Json.getField, hlk]
  simp [pageFor, Json.asArr, revisionsInto, Json.getField, List.lookup]

theorem foldlM_pagesInto_canonical (l : List String) (gf : String → Int)
    (hf : String → String) :
    ∀ (sub : List String) (acc : List (Json × Json)),
      (∀ id ∈ sub, id ∈ l) →
      (∀ p ∈ acc, ∃ z : Int, p.1 = Json.num z) →
      ∃ m, List.foldlM (pagesInto (Json.obj (l.map (fun x =>
          (x, pageFor (gf x) (hf x)))))) acc sub = some m
        ∧ (∀ p ∈ m, ∃ z : Int, p.1 = Json.num z) := by
  intro sub
  induction sub with
  | nil =>
    intro acc _ hacc
    exact ⟨acc, rfl, hacc⟩
  | cons id rest ih =>
    intro acc hsub hacc
    rw [List.foldlM_cons]
    rw [pagesInto_canonical l gf hf acc id (hsub id (by simp))]
    have hacc2 := dictInsert_num_keys acc hacc (gf id) (Json.str (hf id))
    obtain ⟨m, hm, hkeys⟩ := ih (dictInsert acc (Json.num (gf id)) (Json.str (hf id)))
      (fun i hi => hsub i (by simp [hi])) hacc2
    exact ⟨m, by simp [hm], hkeys⟩

/-- One batch against the canonical service parses cleanly: the bad
ids of the batch come back as badrevs, the rest come back as a mapping
with integer keys that display_revinfo accepts. -/
theorem serveBad_step (bad : Nat → Bool) (batch : List String) :
    ∃ m lines,
      get_revinfo (serveBad bad) batch
        = .ok (.pairRet m (batch.filter (badKey bad)))
      ∧ display_revinfo m = some lines := by
  have hcanon := get_revinfo_from_json_canonical
    ((batch.filter (badKey bad)).map (fun id => (id, Json.obj [])))
    ((batch.filter (fun id => !badKey bad id)).map (fun id =>
      (id, pageFor ((pyIntOfStr id).getD 0 : Int) ("ts-" ++ id))))
  have hbads : (((batch.filter (badKey bad)).map (fun id => (id, Json.obj []))).map Prod.fst)
      = batch.filter (badKey bad) := by
    simp [List.map_map, Function.comp_def]
  have hpk : (((batch.filter (fun id => !badKey bad id)).map (fun id =>
        (id, pageFor ((pyIntOfStr id).getD 0 : Int) ("ts-" ++ id)))).map Prod.fst)
      = batch.filter (fun id => !badKey bad id) := by
    simp [List.map_map, Function.comp_def]
  rw [hbads, hpk] at hcanon
  obtain ⟨m, hfold, hkeys⟩ := foldlM_pagesInto_canonical
    (batch.filter (fun id => !badKey bad id))
    (fun id => ((pyIntOfStr id).getD 0 : Int)) (fun id => "ts-" ++ id)
    (batch.filter (fun id => !badKey bad id)) [] (fun _ h => h) (by simp)
  rw [hfold] at hcanon
  obtain ⟨lines, hdisp⟩ := display_some_of_num_keys m hkeys
  refine ⟨m, lines, ?_, hdisp⟩
  simp only [get_revinfo, serveBad]
  rw [if_neg (by simp)]
  rw [hcanon]

/-- The batch loop against the canonical service finishes normally and
collects exactly the queried ids whose numbers are bad. -/
theorem do_revrange_loop_serveBad (bad : Nat → Bool) :
    ∀ (revrange : List RangeElt) (redo : List String),
      ∃ tr, do_revrange_loop (serveBad bad) revrange redo
        = (.ok (redo ++ (revrange.map pyStr).filter (badKey bad)), tr)
  | [], redo => by
    rw [do_revrange_loop]
    exact ⟨⟨[], []⟩, by simp⟩
  | r :: rs, redo => by
    obtain ⟨m, lines, hg, hd⟩ := serveBad_step bad (((r :: rs).take 10).map pyStr)
    obtain ⟨tr2, hrest⟩ := do_revrange_loop_serveBad bad ((r :: rs).drop 10)
      (redo ++ (((r :: rs).take 10).map pyStr).filter (badKey bad))
    refine ⟨Trace.append ⟨[((r :: rs).take 10).map pyStr], lines⟩ tr2, ?_⟩
    rw [do_revrange_loop]
    rw [hg]
    dsimp only
    rw [hd]
    dsimp only
    rw [hrest]
    dsimp only
    have hsplit : (((r :: rs).take 10).map pyStr).filter (badKey bad)
        ++ (((r :: rs).drop 10).map pyStr).filter (badKey bad)
        = ((r :: rs).map pyStr).filter (badKey bad) := by
      rw [← List.filter_append]
      rw [List.map_take, List.map_drop, List.take_append_drop]
    rw [List.append_assoc, hsplit]
termination_by revrange => revrange.length
decreasing_by
  simp only [List.length_drop, List.length_cons]
  omega

theorem filter_badKey_map_pyStrOfNat (bad : Nat → Bool) (ms : List Nat) :
    (ms.map pyStrOfNat).filter (badKey bad) = (ms.filter bad).map pyStrOfNat := by
  induction ms with
  | nil => rfl
  | cons a l ih =>
    simp only [List.map_cons, List.filter_cons, badKey_pyStrOfNat]
    by_cases hb : bad a
    · simp [hb, ih]
    · simp [hb, ih]

/-- One retry pass against the canonical service: the surviving bad
ids are the incremented ids that are still bad. -/
theorem retryLoop_serveBad_step (bad : Nat → Bool) (nats : List Nat) (fuel : Nat)
    (hne : nats ≠ []) :
    (retryLoop (serveBad bad) (fuel + 1) (nats.map pyStrOfNat)).1 =
      (retryLoop (serveBad bad) fuel
        (((nats.map (· + 1)).filter bad).map pyStrOfNat)).1 := by
  rw [retryLoop.eq_def]
  dsimp only
  rw [if_neg (by simpa using hne)]
  have hb : build_new_range (nats.map pyStrOfNat)
      = some (nats.map (fun n => RangeElt.strElt (pyStrOfNat (n + 1)))) := by
    simp [build_new_range, pyIntList_map_pyStrOfNat]
  rw [hb]
  obtain ⟨tr, hdr⟩ := do_revrange_loop_serveBad bad
    (nats.map (fun n => RangeElt.strElt (pyStrOfNat (n + 1)))) []
  have hmap : ((nats.map (fun n => RangeElt.strElt (pyStrOfNat (n + 1)))).map pyStr)
      = (nats.map (· + 1)).map pyStrOfNat := by
    simp [List.map_map, Function.comp_def, pyStr]
  rw [hmap, filter_badKey_map_pyStrOfNat] at hdr
  simp only [do_revrange]
  rw [hdr]
  dsimp only
  rw [List.nil_append]

theorem exists_global_bound (bad : Nat → Bool) :
    ∀ (nats : List Nat), (∀ b ∈ nats, ∃ n, 0 < n ∧ bad (b + n) = false) →
      ∃ N, ∀ b ∈ nats, ∃ n, 0 < n ∧ n ≤ N ∧ bad (b + n) = false := by
  intro nats
  induction nats with
  | nil =>
    intro _
    exact ⟨0, by simp⟩
  | cons b bs ih =>
    intro h
    obtain ⟨n, hn, hnf⟩ := h b (by simp)
    obtain ⟨N, hN⟩ := ih (fun x hx => h x (by simp [hx]))
    refine ⟨max n N, ?_⟩
    intro x hx
    rcases List.mem_cons.mp hx with rfl | hx2
    · exact ⟨n, hn, le_max_left n N, hnf⟩
    · obtain ⟨k, hk1, hk2, hk3⟩ := hN x hx2
      exact ⟨k, hk1, le_trans hk2 (le_max_right n N), hk3⟩

/-- The retry loop against the canonical service halts within N passes
when every bad id reaches an accepted id in at most N increments. -/
theorem retryLoop_serveBad_okDone (bad : Nat → Bool) :
    ∀ (N : Nat) (nats : List Nat),
      (∀ b ∈ nats, ∃ n, 0 < n ∧ n ≤ N ∧ bad (b + n) = false) →
      (retryLoop (serveBad bad) N (nats.map pyStrOfNat)).1 = .okDone := by
  intro N
  induction N with
  | zero =>
    intro nats h
    have hnil : nats = [] := by
      cases nats with
      | nil => rfl
      | cons b bs =>
        obtain ⟨n, hn1, hn2, _⟩ := h b (by simp)
        omega
    subst hnil
    rw [retryLoop.eq_def]
    simp
  | succ N ih =>
    intro nats h
    by_cases hne : nats = []
    · subst hne
      rw [retryLoop.eq_def]
      simp
    · rw [retryLoop_serveBad_step bad nats N hne]
      apply ih
      intro x hx
      simp only [List.mem_filter, List.mem_map] at hx
      obtain ⟨⟨b, hb, rfl⟩, hbad⟩ := hx
      obtain ⟨n, hn1, hn2, hnf⟩ := h b hb
      have hn_ne1 : n ≠ 1 := by
        intro hn
        rw [hn] at hnf
        rw [hnf] at hbad
        exact Bool.noConfusion hbad
      refine ⟨n - 1, by omega, by omega, ?_⟩
      have heq : b + 1 + (n - 1) = b + n := by omega
      rw [heq]
      exact hnf

/-- Against a service that rejects every id, the retry loop never
finishes: every fuel bound is exhausted. -/
theorem retryLoop_allBad_outOfFuel :
    ∀ (fuel n : Nat),
      (retryLoop (serveBad (fun _ => true)) fuel [pyStrOfNat n]).1 = .outOfFuel := by
  intro fuel
  induction fuel with
  | zero =>
    intro n
    rw [retryLoop.eq_def]
    simp
  | succ f ih =>
    intro n
    have hstep := retryLoop_serveBad_step (fun _ => true) [n] f (by simp)
    rw [show ([n].map pyStrOfNat) = [pyStrOfNat n] from rfl] at hstep
    rw [hstep]
    have hl : ((([n].map (· + 1)).filter (fun _ => true)).map pyStrOfNat)
        = [pyStrOfNat (n + 1)] := by simp
    rw [hl]
    exact ih (n + 1)

/-- C8: against a functional service (each queried id is either
accepted or reported bad, per the oracle predicate bad), the retry
loop of do_main terminates whenever every bad id reaches, after some
finite number of +1 increments, an id the service accepts; and without
that precondition the loop can run forever: with every id bad, no fuel
bound suffices for the nonempty redo list ["5"]. -/
theorem c8_retry_termination :
    (∀ (bad : Nat → Bool) (nats : List Nat),
      (∀ b ∈ nats, ∃ n, 0 < n ∧ bad (b + n) = false) →
      ∃ fuel, (retryLoop (serveBad bad) fuel (nats.map pyStrOfNat)).1 = .okDone)
    ∧ (∃ (bad : Nat → Bool) (redo : List String), redo ≠ [] ∧
        ∀ fuel, (retryLoop (serveBad bad) fuel redo).1 = .outOfFuel) := by
  constructor
  · intro bad nats h
    obtain ⟨N, hN⟩ := exists_global_bound bad nats h
    exact ⟨N, retryLoop_serveBad_okDone bad N nats hN⟩
  · refine ⟨(fun _ => true), ["5"], by simp, fun fuel => ?_⟩
    rw [show (["5"] : List String) = [pyStrOfNat 5] from rfl]
    exact retryLoop_allBad_outOfFuel fuel 5

/-- Witness for C8: bad id 5 against a service accepting ids from 7 up
is repaired within finitely many passes. -/
theorem c8_retry_termination_witness :
    ∃ fuel, (retryLoop (serveBad (fun n => decide (n < 7))) fuel
      ([5].map pyStrOfNat)).1 = .okDone :=
  c8_retry_termination.1 (fun n => decide (n < 7)) [5] (by
    intro b hb
    simp only [List.mem_singleton] at hb
    subst hb
    exact ⟨2, by omega, by decide⟩)
